import Mathlib

/-
Formalisation of the bounded restart driver `psi4_optimize` from the
psi4-nb notebooks.  The driver wraps the external `psi4.optimize` call:
it sets the iteration-budget options, invokes the engine, and on a
`psi4.driver.ConvergenceError` it saves the failing wavefunction to the
scratch file of unit 180, optionally records the molecule geometry,
resets the options (GUESS = read, MAXITER/GEOM_MAXITER =
initial_iterations + increment_iteration), increments the loop counter
and retries until `max_loop_count <= loop_count`, at which point the
caught error is re-raised.

The external engine is modelled as an oracle giving the outcome of the
k-th invocation and the (scaled) geometry snapshot observed after the
k-th failure; energies, wavefunction handles, history handles, error
payloads and snapshots are opaque and modelled by numbers.
-/

namespace Psi4Restart

/-- Values storable in the process-wide psi4 option dictionary: the
notebook stores integers (MAXITER, GEOM_MAXITER) and strings (GUESS). -/
inductive OptVal where
  | int : Int → OptVal
  | str : String → OptVal
deriving DecidableEq

/-- The process-wide option dictionary, an association list keyed by
option name.  `setOpt` replaces the binding in place if the key is
present and appends it otherwise, matching mutable-dictionary update. -/
abbrev Opts := List (String × OptVal)

/-- Update one option, replacing an existing binding for the key. -/
def setOpt (o : Opts) (k : String) (v : OptVal) : Opts :=
  match o with
  | [] => [(k, v)]
  | (k', v') :: rest => if k' = k then (k, v) :: rest else (k', v') :: setOpt rest k v

/-- Look up an option by name. -/
def getOpt (o : Opts) (k : String) : Option OptVal :=
  match o with
  | [] => none
  | (k', v') :: rest => if k' = k then some v' else getOpt rest k

/-- Model of `psi4.set_options`: apply each key/value pair of the given
dictionary (in insertion order) to the global option state. -/
def set_options (o : Opts) (kvs : List (String × OptVal)) : Opts :=
  kvs.foldl (fun acc kv => setOpt acc kv.1 kv.2) o

/-- Option key literal from the source: MAXITER. -/
def maxiterKey : String := "MAXITER"

/-- Option key literal from the source: GEOM_MAXITER. -/
def geomMaxiterKey : String := "GEOM_MAXITER"

/-- Option key literal from the source: GUESS. -/
def guessKey : String := "GUESS"

/-- Option value literal from the source: the string read. -/
def readVal : String := "read"

/-- Outcome of one invocation of the external `psi4.optimize` call:
either success (energy, wavefunction handle, history handle), a
`ConvergenceError` carrying the unconverged wavefunction handle
(`cerr.wfn`), or any other engine error with an opaque payload. -/
inductive EngineRes where
  | success : Int → Nat → Nat → EngineRes
  | convErr : Nat → EngineRes
  | otherErr : Nat → EngineRes
deriving DecidableEq

/-- The external engine, modelled as an oracle: `engine k` is the
outcome of the k-th invocation of `psi4.optimize` (counting from 0),
and `snapshot k` is the array obtained from the molecule geometry
(scaled to angstroms) when the k-th invocation has failed. -/
structure Env where
  engine : Nat → EngineRes
  snapshot : Nat → Nat

/-- The third component of the returned triple: either the engine's own
history handle, or the accumulator dictionary
`{"coordinates": tuple(molecule_traj)}` built when a molecule was
supplied. -/
inductive Traj where
  | engineHist : Nat → Traj
  | coordinates : List Nat → Traj
deriving DecidableEq

/-- How the call ends: normal return of `(opt_energy, wfn, traj)`, a
re-raised `ConvergenceError` (carrying the wavefunction of the raising
attempt), or an unhandled engine error propagating out. -/
inductive Outcome where
  | ok : Int → Nat → Traj → Outcome
  | convergenceError : Nat → Outcome
  | otherError : Nat → Outcome
deriving DecidableEq

/-- Observable trace of one `psi4_optimize` call.  `optsTrace` records
the option dictionary in effect at each invocation of the engine,
`writes` the `(wavefunction handle, scratch unit)` of each
`wfn.to_file(wfn.get_scratch_filename(180))` call, `counterTrace`
every value the `loop_count` variable takes, and `molTraj` the
`molecule_traj` accumulator (`none` when no molecule was supplied). -/
structure RunResult where
  outcome : Outcome
  invocations : Nat
  optsTrace : List Opts
  finalOpts : Opts
  writes : List (Nat × Nat)
  finalLoopCount : Nat
  counterTrace : List Nat
  molTraj : Option (List Nat)
deriving DecidableEq

/-- The `psi4.set_options` call of the except-branch:
GUESS = read and both iteration budgets set to
`initial_iterations + increment_iteration`. -/
def retrySet (initIt incIt : Int) (opts : Opts) : Opts :=
  set_options opts
    [(guessKey, OptVal.str readVal),
     (maxiterKey, OptVal.int (initIt + incIt)),
     (geomMaxiterKey, OptVal.int (initIt + incIt))]

/-- The `while unconv` loop of `psi4_optimize`, transliterated.  Each
round invokes the engine; on success it returns the triple (replacing
the history by the coordinates dictionary when a molecule was given);
on a `ConvergenceError` it appends the geometry snapshot (molecule
case), records the scratch-file write of unit 180, applies `retrySet`,
increments `loop_count` and, unless `max_loop_count <= loop_count`
now holds, loops again; any other engine error propagates at once. -/
def optimizeLoop (env : Env) (initIt incIt : Int) (maxLoop : Nat)
    (loopCount : Nat) (opts : Opts) (invocs : Nat)
    (optsT : List Opts) (writesAcc : List (Nat × Nat)) (counterT : List Nat)
    (molTraj : Option (List Nat)) : RunResult :=
  match env.engine invocs with
  | EngineRes.success e w h =>
      { outcome := Outcome.ok e w
          (match molTraj with
           | some tr => Traj.coordinates tr
           | none => Traj.engineHist h),
        invocations := invocs + 1,
        optsTrace := optsT ++ [opts],
        finalOpts := opts,
        writes := writesAcc,
        finalLoopCount := loopCount,
        counterTrace := counterT,
        molTraj := molTraj }
  | EngineRes.convErr w =>
      let molTraj' := molTraj.map (fun tr => tr ++ [env.snapshot invocs])
      let writes' := writesAcc ++ [(w, 180)]
      let opts' := retrySet initIt incIt opts
      if h : maxLoop ≤ loopCount + 1 then
        { outcome := Outcome.convergenceError w,
          invocations := invocs + 1,
          optsTrace := optsT ++ [opts],
          finalOpts := opts',
          writes := writes',
          finalLoopCount := loopCount + 1,
          counterTrace := counterT ++ [loopCount + 1],
          molTraj := molTraj' }
      else
        optimizeLoop env initIt incIt maxLoop (loopCount + 1) opts' (invocs + 1)
          (optsT ++ [opts]) writes' (counterT ++ [loopCount + 1]) molTraj'
  | EngineRes.otherErr err =>
      { outcome := Outcome.otherError err,
        invocations := invocs + 1,
        optsTrace := optsT ++ [opts],
        finalOpts := opts,
        writes := writesAcc,
        finalLoopCount := loopCount,
        counterTrace := counterT,
        molTraj := molTraj }
termination_by maxLoop - loopCount
decreasing_by
  simp_wf
  omega

/-- Fuel-indexed twin of `optimizeLoop`, structurally recursive on
`remaining = maxLoop - loopCount` so that concrete runs evaluate inside
the kernel; `optimizeLoop_eq_fuel` proves it implements the same loop. -/
def optimizeLoopFuel (env : Env) (initIt incIt : Int)
    (remaining : Nat) (loopCount : Nat) (opts : Opts) (invocs : Nat)
    (optsT : List Opts) (writesAcc : List (Nat × Nat)) (counterT : List Nat)
    (molTraj : Option (List Nat)) : RunResult :=
  match remaining, env.engine invocs with
  | _, EngineRes.success e w h =>
      { outcome := Outcome.ok e w
          (match molTraj with
           | some tr => Traj.coordinates tr
           | none => Traj.engineHist h),
        invocations := invocs + 1,
        optsTrace := optsT ++ [opts],
        finalOpts := opts,
        writes := writesAcc,
        finalLoopCount := loopCount,
        counterTrace := counterT,
        molTraj := molTraj }
  | 0, EngineRes.convErr w | 1, EngineRes.convErr w =>
      { outcome := Outcome.convergenceError w,
        invocations := invocs + 1,
        optsTrace := optsT ++ [opts],
        finalOpts := retrySet initIt incIt opts,
        writes := writesAcc ++ [(w, 180)],
        finalLoopCount := loopCount + 1,
        counterTrace := counterT ++ [loopCount + 1],
        molTraj := molTraj.map (fun tr => tr ++ [env.snapshot invocs]) }
  | r + 2, EngineRes.convErr w =>
      optimizeLoopFuel env initIt incIt (r + 1) (loopCount + 1)
        (retrySet initIt incIt opts) (invocs + 1)
        (optsT ++ [opts]) (writesAcc ++ [(w, 180)]) (counterT ++ [loopCount + 1])
        (molTraj.map (fun tr => tr ++ [env.snapshot invocs]))
  | _, EngineRes.otherErr err =>
      { outcome := Outcome.otherError err,
        invocations := invocs + 1,
        optsTrace := optsT ++ [opts],
        finalOpts := opts,
        writes := writesAcc,
        finalLoopCount := loopCount,
        counterTrace := counterT,
        molTraj := molTraj }

/-- The `psi4.set_options` call made before the loop:
MAXITER and GEOM_MAXITER are both set to `initial_iterations`. -/
def initialOpts (opts0 : Opts) (initIt : Int) : Opts :=
  set_options opts0 [(maxiterKey, OptVal.int initIt), (geomMaxiterKey, OptVal.int initIt)]

/-- Model of `psi4_optimize`: starting from the ambient option state
`opts0`, set MAXITER and GEOM_MAXITER to `initial_iterations`, then run
the retry loop with `loop_count = 0` and an empty trajectory accumulator
(present exactly when a molecule handle is supplied). -/
def psi4_optimize (env : Env) (opts0 : Opts) (initIt incIt : Int)
    (maxLoop : Nat) (moleculeGiven : Bool) : RunResult :=
  optimizeLoop env initIt incIt maxLoop 0 (initialOpts opts0 initIt)
    0 [] [] [0] (if moleculeGiven then some [] else none)

/-- Fuel-indexed twin of `psi4_optimize`. -/
def psi4_optimizeFuel (env : Env) (opts0 : Opts) (initIt incIt : Int)
    (maxLoop : Nat) (moleculeGiven : Bool) : RunResult :=
  optimizeLoopFuel env initIt incIt maxLoop 0 (initialOpts opts0 initIt)
    0 [] [] [0] (if moleculeGiven then some [] else none)

/-- The loop and its fuel twin agree when the fuel is
`maxLoop - loopCount`, the measure of the while loop. -/
theorem optimizeLoop_eq_fuel (env : Env) (initIt incIt : Int) (maxLoop : Nat) :
    ∀ fuel loopCount opts invocs optsT writesAcc counterT molTraj,
      fuel = maxLoop - loopCount →
      optimizeLoop env initIt incIt maxLoop loopCount opts invocs optsT writesAcc counterT molTraj =
        optimizeLoopFuel env initIt incIt fuel loopCount opts invocs optsT writesAcc counterT molTraj := by
  intro fuel
  induction fuel using Nat.strong_induction_on with
  | _ fuel ih =>
    intro loopCount opts invocs optsT writesAcc counterT molTraj hfuel
    rw [optimizeLoop]
    cases henv : env.engine invocs with
    | success e w h =>
        rcases fuel with _ | _ | r <;> (rw [optimizeLoopFuel.eq_def, henv])
    | convErr w =>
        by_cases hle : maxLoop ≤ loopCount + 1
        · simp only [henv, dif_pos hle]
          have : fuel = 0 ∨ fuel = 1 := by omega
          rcases this with h0 | h1
          · subst h0; rw [optimizeLoopFuel.eq_def, henv]
          · subst h1; rw [optimizeLoopFuel.eq_def, henv]
        · simp only [henv, dif_neg hle]
          obtain ⟨r, hr⟩ : ∃ r, fuel = r + 2 := ⟨fuel - 2, by omega⟩
          subst hr
          rw [optimizeLoopFuel.eq_def, henv]
          exact ih (r + 1) (by omega) (loopCount + 1)
            (retrySet initIt incIt opts) (invocs + 1) (optsT ++ [opts])
            (writesAcc ++ [(w, 180)]) (counterT ++ [loopCount + 1])
            (molTraj.map (fun tr => tr ++ [env.snapshot invocs]))
            (by omega)
    | otherErr err =>
        rcases fuel with _ | _ | r <;> (rw [optimizeLoopFuel.eq_def, henv])

/-- The driver and its fuel twin agree. -/
theorem psi4_optimize_eq_fuel (env : Env) (opts0 : Opts) (initIt incIt : Int)
    (maxLoop : Nat) (moleculeGiven : Bool) :
    psi4_optimize env opts0 initIt incIt maxLoop moleculeGiven =
      psi4_optimizeFuel env opts0 initIt incIt maxLoop moleculeGiven := by
  unfold psi4_optimize psi4_optimizeFuel
  exact optimizeLoop_eq_fuel env initIt incIt maxLoop maxLoop 0 _ 0 [] [] [0] _ (by omega)

/-- Looking up the key just set returns the value just set. -/
theorem getOpt_setOpt_self (o : Opts) (k : String) (v : OptVal) :
    getOpt (setOpt o k v) k = some v := by
  induction o with
  | nil => simp [setOpt, getOpt]
  | cons kv rest ih =>
      obtain ⟨k', v'⟩ := kv
      by_cases hk : k' = k
      · subst hk; simp [setOpt, getOpt]
      · simp [setOpt, getOpt, hk, ih]

/-- Setting one key does not change the binding of any other key. -/
theorem getOpt_setOpt_ne (o : Opts) (k k' : String) (v : OptVal) (h : k' ≠ k) :
    getOpt (setOpt o k' v) k = getOpt o k := by
  induction o with
  | nil => simp [setOpt, getOpt, h]
  | cons kv rest ih =>
      obtain ⟨k0, v0⟩ := kv
      by_cases hk : k0 = k'
      · subst hk; simp [setOpt, getOpt, h]
      · by_cases hk2 : k0 = k
        · subst hk2; simp [setOpt, getOpt, hk]
        · simp [setOpt, getOpt, hk, hk2, ih]

/-- Re-setting a key to the value it already holds leaves the
dictionary unchanged. -/
theorem setOpt_noop (o : Opts) (k : String) (v : OptVal) (h : getOpt o k = some v) :
    setOpt o k v = o := by
  induction o with
  | nil => simp [getOpt] at h
  | cons kv rest ih =>
      obtain ⟨k0, v0⟩ := kv
      by_cases hk : k0 = k
      · subst hk
        simp only [getOpt] at h
        simp only [if_pos trivial, Option.some.injEq] at h
        simp [setOpt, h]
      · simp only [getOpt, if_neg hk] at h
        simp [setOpt, hk, ih h]

/-- Unfolding of `retrySet` into its three dictionary updates. -/
theorem retrySet_def (initIt incIt : Int) (o : Opts) :
    retrySet initIt incIt o =
      setOpt (setOpt (setOpt o guessKey (OptVal.str readVal))
          maxiterKey (OptVal.int (initIt + incIt)))
        geomMaxiterKey (OptVal.int (initIt + incIt)) := by
  rfl

/-- The three option keys are pairwise distinct. -/
theorem optionKeys_distinct :
    guessKey ≠ maxiterKey ∧ guessKey ≠ geomMaxiterKey ∧ maxiterKey ≠ geomMaxiterKey := by
  refine ⟨?_, ?_, ?_⟩ <;> decide

/-- After a retry update, GUESS holds the string read. -/
theorem getOpt_retrySet_guess (initIt incIt : Int) (o : Opts) :
    getOpt (retrySet initIt incIt o) guessKey = some (OptVal.str readVal) := by
  rw [retrySet_def]
  rw [getOpt_setOpt_ne _ _ _ _ (by decide)]
  rw [getOpt_setOpt_ne _ _ _ _ (by decide)]
  exact getOpt_setOpt_self _ _ _

/-- After a retry update, MAXITER holds `initial + increment`. -/
theorem getOpt_retrySet_maxiter (initIt incIt : Int) (o : Opts) :
    getOpt (retrySet initIt incIt o) maxiterKey = some (OptVal.int (initIt + incIt)) := by
  rw [retrySet_def]
  rw [getOpt_setOpt_ne _ _ _ _ (by decide)]
  exact getOpt_setOpt_self _ _ _

/-- After a retry update, GEOM_MAXITER holds `initial + increment`. -/
theorem getOpt_retrySet_geomMaxiter (initIt incIt : Int) (o : Opts) :
    getOpt (retrySet initIt incIt o) geomMaxiterKey = some (OptVal.int (initIt + incIt)) := by
  rw [retrySet_def]
  exact getOpt_setOpt_self _ _ _

/-- A retry update leaves every key other than GUESS, MAXITER and
GEOM_MAXITER untouched. -/
theorem getOpt_retrySet_other (initIt incIt : Int) (o : Opts) (k : String)
    (h1 : k ≠ guessKey) (h2 : k ≠ maxiterKey) (h3 : k ≠ geomMaxiterKey) :
    getOpt (retrySet initIt incIt o) k = getOpt o k := by
  rw [retrySet_def]
  rw [getOpt_setOpt_ne _ _ _ _ (fun h => h3 h.symm)]
  rw [getOpt_setOpt_ne _ _ _ _ (fun h => h2 h.symm)]
  exact getOpt_setOpt_ne _ _ _ _ (fun h => h1 h.symm)

/-- The retry update is idempotent: the except-branch `set_options` call
writes the same three values each time, so a second application changes
nothing. -/
theorem retrySet_idem (initIt incIt : Int) (o : Opts) :
    retrySet initIt incIt (retrySet initIt incIt o) = retrySet initIt incIt o := by
  conv_lhs => rw [retrySet_def]
  rw [setOpt_noop _ _ _ (getOpt_retrySet_guess initIt incIt o)]
  rw [setOpt_noop _ _ _ (getOpt_retrySet_maxiter initIt incIt o)]
  exact setOpt_noop _ _ _ (getOpt_retrySet_geomMaxiter initIt incIt o)

/-- One step of the fuel loop when the engine converges. -/
theorem loopFuel_success (env : Env) (initIt incIt : Int) (rem loopCount : Nat)
    (opts : Opts) (invocs : Nat) (optsT : List Opts) (writesAcc : List (Nat × Nat))
    (counterT : List Nat) (molTraj : Option (List Nat))
    (e : Int) (wf hist : Nat) (hw : env.engine invocs = EngineRes.success e wf hist) :
    optimizeLoopFuel env initIt incIt rem loopCount opts invocs optsT writesAcc counterT molTraj =
      { outcome := Outcome.ok e wf
          (match molTraj with
           | some tr => Traj.coordinates tr
           | none => Traj.engineHist hist),
        invocations := invocs + 1,
        optsTrace := optsT ++ [opts],
        finalOpts := opts,
        writes := writesAcc,
        finalLoopCount := loopCount,
        counterTrace := counterT,
        molTraj := molTraj } := by
  rcases rem with _ | _ | r <;> (rw [optimizeLoopFuel.eq_def, hw])

/-- One step of the fuel loop when the engine raises a non-convergence
error: it propagates at once. -/
theorem loopFuel_other (env : Env) (initIt incIt : Int) (rem loopCount : Nat)
    (opts : Opts) (invocs : Nat) (optsT : List Opts) (writesAcc : List (Nat × Nat))
    (counterT : List Nat) (molTraj : Option (List Nat))
    (err : Nat) (hw : env.engine invocs = EngineRes.otherErr err) :
    optimizeLoopFuel env initIt incIt rem loopCount opts invocs optsT writesAcc counterT molTraj =
      { outcome := Outcome.otherError err,
        invocations := invocs + 1,
        optsTrace := optsT ++ [opts],
        finalOpts := opts,
        writes := writesAcc,
        finalLoopCount := loopCount,
        counterTrace := counterT,
        molTraj := molTraj } := by
  rcases rem with _ | _ | r <;> (rw [optimizeLoopFuel.eq_def, hw])

/-- One step of the fuel loop on a convergence failure with exhausted
budget (`max_loop_count <= loop_count` after the increment): the caught
error is re-raised after the side effects of the except branch. -/
theorem loopFuel_conv_exhaust (env : Env) (initIt incIt : Int) (rem loopCount : Nat)
    (opts : Opts) (invocs : Nat) (optsT : List Opts) (writesAcc : List (Nat × Nat))
    (counterT : List Nat) (molTraj : Option (List Nat))
    (wf : Nat) (hw : env.engine invocs = EngineRes.convErr wf) (hrem : rem ≤ 1) :
    optimizeLoopFuel env initIt incIt rem loopCount opts invocs optsT writesAcc counterT molTraj =
      { outcome := Outcome.convergenceError wf,
        invocations := invocs + 1,
        optsTrace := optsT ++ [opts],
        finalOpts := retrySet initIt incIt opts,
        writes := writesAcc ++ [(wf, 180)],
        finalLoopCount := loopCount + 1,
        counterTrace := counterT ++ [loopCount + 1],
        molTraj := molTraj.map (fun tr => tr ++ [env.snapshot invocs]) } := by
  rcases rem with _ | _ | r
  · rw [optimizeLoopFuel.eq_def, hw]
  · rw [optimizeLoopFuel.eq_def, hw]
  · omega

/-- One step of the fuel loop on a convergence failure with budget left:
perform the except-branch side effects and loop again. -/
theorem loopFuel_conv_step (env : Env) (initIt incIt : Int) (r loopCount : Nat)
    (opts : Opts) (invocs : Nat) (optsT : List Opts) (writesAcc : List (Nat × Nat))
    (counterT : List Nat) (molTraj : Option (List Nat))
    (wf : Nat) (hw : env.engine invocs = EngineRes.convErr wf) :
    optimizeLoopFuel env initIt incIt (r + 2) loopCount opts invocs optsT writesAcc counterT molTraj =
      optimizeLoopFuel env initIt incIt (r + 1) (loopCount + 1)
        (retrySet initIt incIt opts) (invocs + 1)
        (optsT ++ [opts]) (writesAcc ++ [(wf, 180)]) (counterT ++ [loopCount + 1])
        (molTraj.map (fun tr => tr ++ [env.snapshot invocs])) := by
  rw [optimizeLoopFuel.eq_def, hw]

/-- An engine that reports a convergence failure on every invocation:
invocation k fails with wavefunction handle `w k`, and the geometry
snapshot recorded at that failure is `s k`. -/
def allFail (w s : Nat → Nat) : Env :=
  { engine := fun k => EngineRes.convErr (w k), snapshot := s }

/-- Closed form of the fuel loop against a permanently failing engine:
starting with fuel `remaining` the loop performs `max remaining 1`
further invocations, re-raises the error of the last one, records one
scratch write and one snapshot per failure, and after the first retry
the option dictionary is pinned at `retrySet opts`. -/
theorem optimizeLoopFuel_allFail (w s : Nat → Nat) (initIt incIt : Int) :
    ∀ remaining loopCount opts invocs optsT writesAcc counterT molTraj,
      optimizeLoopFuel (allFail w s) initIt incIt remaining loopCount opts invocs
          optsT writesAcc counterT molTraj =
        { outcome := Outcome.convergenceError (w (invocs + (max remaining 1 - 1))),
          invocations := invocs + max remaining 1,
          optsTrace := optsT ++ opts :: List.replicate (max remaining 1 - 1) (retrySet initIt incIt opts),
          finalOpts := retrySet initIt incIt opts,
          writes := writesAcc ++ (List.range' invocs (max remaining 1)).map (fun k => (w k, 180)),
          finalLoopCount := loopCount + max remaining 1,
          counterTrace := counterT ++ List.range' (loopCount + 1) (max remaining 1),
          molTraj := molTraj.map (fun tr => tr ++ (List.range' invocs (max remaining 1)).map s) } := by
  intro remaining
  induction remaining using Nat.twoStepInduction with
  | zero =>
      intro loopCount opts invocs optsT writesAcc counterT molTraj
      rw [loopFuel_conv_exhaust (allFail w s) initIt incIt 0 loopCount opts invocs
        optsT writesAcc counterT molTraj (w invocs) rfl (by omega)]
      simp [List.range', allFail]
  | one =>
      intro loopCount opts invocs optsT writesAcc counterT molTraj
      rw [loopFuel_conv_exhaust (allFail w s) initIt incIt 1 loopCount opts invocs
        optsT writesAcc counterT molTraj (w invocs) rfl (by omega)]
      simp [List.range', allFail]
  | more r _ ih =>
      intro loopCount opts invocs optsT writesAcc counterT molTraj
      rw [loopFuel_conv_step (allFail w s) initIt incIt r loopCount opts invocs
        optsT writesAcc counterT molTraj (w invocs) rfl]
      rw [ih]
      have hmax1 : max (r + 1) 1 = r + 1 := by omega
      have hmax2 : max (r + 2) 1 = r + 2 := by omega
      rw [hmax1, hmax2]
      have hrange : ∀ a : Nat, List.range' a (r + 2) = a :: List.range' (a + 1) (r + 1) :=
        fun a => List.range'_succ a (r + 1) 1
      congr 1
      · congr 2
        omega
      · omega
      · simp only [retrySet_idem, List.append_assoc, List.cons_append, List.nil_append]
        have e1 : r + 1 - 1 = r := by omega
        have e2 : r + 2 - 1 = r + 1 := by omega
        rw [e1, e2, List.replicate_succ]
      · exact retrySet_idem initIt incIt opts
      · rw [hrange invocs]
        simp [List.append_assoc]
      · omega
      · rw [hrange (loopCount + 1)]
        simp [List.append_assoc]
      · rw [hrange invocs]
        cases molTraj <;> simp [allFail]

/-- Top-level closed form of `psi4_optimize` against a permanently
failing engine. -/
theorem psi4_optimize_allFail (w s : Nat → Nat) (opts0 : Opts) (initIt incIt : Int)
    (maxLoop : Nat) (moleculeGiven : Bool) :
    psi4_optimize (allFail w s) opts0 initIt incIt maxLoop moleculeGiven =
      { outcome := Outcome.convergenceError (w (max maxLoop 1 - 1)),
        invocations := max maxLoop 1,
        optsTrace := initialOpts opts0 initIt ::
          List.replicate (max maxLoop 1 - 1) (retrySet initIt incIt (initialOpts opts0 initIt)),
        finalOpts := retrySet initIt incIt (initialOpts opts0 initIt),
        writes := (List.range (max maxLoop 1)).map (fun k => (w k, 180)),
        finalLoopCount := max maxLoop 1,
        counterTrace := List.range (max maxLoop 1 + 1),
        molTraj := if moleculeGiven then some ((List.range (max maxLoop 1)).map s) else none } := by
  rw [psi4_optimize_eq_fuel]
  unfold psi4_optimizeFuel
  rw [optimizeLoopFuel_allFail]
  have h1 : List.range (max maxLoop 1) = List.range' 0 (max maxLoop 1) :=
    List.range_eq_range' _
  have h2 : List.range (max maxLoop 1 + 1) = 0 :: List.range' 1 (max maxLoop 1) := by
    rw [List.range_eq_range', List.range'_succ]
  rw [h1, h2]
  cases moleculeGiven <;> simp

/-- An engine that fails the first `j` invocations with a convergence
error and then behaves as `fin` on invocation `j` (and later). -/
def failsThen (w : Nat → Nat) (j : Nat) (fin : EngineRes) : Nat → EngineRes :=
  fun k => if k < j then EngineRes.convErr (w k) else fin

/-- Whether an engine outcome is the convergence failure recognised by
the except clause. -/
def isConv : EngineRes → Bool
  | EngineRes.convErr _ => true
  | _ => false

/-- How a halting (non-convergence-failure) engine outcome leaves the
driver: success returns the triple, any other error propagates. -/
def haltOutcome (fin : EngineRes) (molTraj : Option (List Nat)) : Outcome :=
  match fin with
  | EngineRes.success e wf hist =>
      Outcome.ok e wf
        (match molTraj with
         | some tr => Traj.coordinates tr
         | none => Traj.engineHist hist)
  | EngineRes.convErr wq => Outcome.convergenceError wq
  | EngineRes.otherErr err => Outcome.otherError err

/-- Runs that fail `d` times and then halt: if the engine reports a
convergence error on invocations `invocs ≤ k < invocs + d` and a
non-convergence outcome (success or another error) on invocation
`invocs + d`, and the retry ceiling is not hit first, the loop performs
`d + 1` further invocations, accumulates `d` writes, counter values and
snapshots, and ends with the halting outcome. -/
theorem optimizeLoopFuel_failsThenHalt (env : Env) (initIt incIt : Int)
    (w : Nat → Nat) (fin : EngineRes) (hfin : isConv fin = false) :
    ∀ d rem loopCount opts invocs optsT writesAcc counterT molTraj,
      (∀ k, invocs ≤ k → k < invocs + d → env.engine k = EngineRes.convErr (w k)) →
      env.engine (invocs + d) = fin →
      d < max rem 1 →
      optimizeLoopFuel env initIt incIt rem loopCount opts invocs
          optsT writesAcc counterT molTraj =
        { outcome := haltOutcome fin
            (molTraj.map (fun tr => tr ++ (List.range' invocs d).map env.snapshot)),
          invocations := invocs + d + 1,
          optsTrace := optsT ++ opts :: List.replicate d (retrySet initIt incIt opts),
          finalOpts := if d = 0 then opts else retrySet initIt incIt opts,
          writes := writesAcc ++ (List.range' invocs d).map (fun k => (w k, 180)),
          finalLoopCount := loopCount + d,
          counterTrace := counterT ++ List.range' (loopCount + 1) d,
          molTraj := molTraj.map (fun tr => tr ++ (List.range' invocs d).map env.snapshot) } := by
  intro d
  induction d with
  | zero =>
      intro rem loopCount opts invocs optsT writesAcc counterT molTraj _ hj _
      rw [Nat.add_zero] at hj
      cases hfin' : fin with
      | success e wf hist =>
          subst hfin'
          rw [loopFuel_success env initIt incIt rem loopCount opts invocs
            optsT writesAcc counterT molTraj e wf hist hj]
          cases molTraj <;> simp [haltOutcome, List.range']
      | convErr wq => subst hfin'; simp [isConv] at hfin
      | otherErr err =>
          subst hfin'
          rw [loopFuel_other env initIt incIt rem loopCount opts invocs
            optsT writesAcc counterT molTraj err hj]
          cases molTraj <;> simp [haltOutcome, List.range']
  | succ d ih =>
      intro rem loopCount opts invocs optsT writesAcc counterT molTraj hfail hj hd
      have hrem : ∃ r, rem = r + 2 := ⟨rem - 2, by omega⟩
      obtain ⟨r, hr⟩ := hrem
      subst hr
      have hk0 : env.engine invocs = EngineRes.convErr (w invocs) :=
        hfail invocs (Nat.le_refl _) (by omega)
      rw [loopFuel_conv_step env initIt incIt r loopCount opts invocs
        optsT writesAcc counterT molTraj (w invocs) hk0]
      rw [ih (r + 1) (loopCount + 1) (retrySet initIt incIt opts) (invocs + 1)
        (optsT ++ [opts]) (writesAcc ++ [(w invocs, 180)]) (counterT ++ [loopCount + 1])
        (molTraj.map (fun tr => tr ++ [env.snapshot invocs]))
        (fun k hk1 hk2 => hfail k (by omega) (by omega))
        (by rw [show invocs + 1 + d = invocs + (d + 1) from by omega]; exact hj)
        (by omega)]
      have hrange : ∀ a : Nat, List.range' a (d + 1) = a :: List.range' (a + 1) d :=
        fun a => List.range'_succ a d 1
      have hmol : (molTraj.map (fun tr => tr ++ [env.snapshot invocs])).map
            (fun tr => tr ++ (List.range' (invocs + 1) d).map env.snapshot) =
          molTraj.map (fun tr => tr ++ (List.range' invocs (d + 1)).map env.snapshot) := by
        rw [hrange invocs]
        cases molTraj <;> simp
      rw [hmol]
      simp only [RunResult.mk.injEq]
      refine ⟨trivial, by omega, ?_, ?_, ?_, by omega, ?_, trivial⟩
      · simp only [retrySet_idem, List.append_assoc, List.cons_append, List.nil_append,
          List.replicate_succ]
      · simp only [Nat.succ_ne_zero, if_false]
        cases d with
        | zero => simp
        | succ d' => simp [retrySet_idem]
      · rw [hrange invocs]
        simp [List.append_assoc]
      · rw [hrange (loopCount + 1)]
        simp [List.append_assoc]

/-- The persisted-state artifact produced by one engine outcome: a
convergence failure writes `(cerr.wfn, 180)` (the wavefunction is saved
to the scratch file of unit 180), everything else writes nothing. -/
def writeOf : EngineRes → Option (Nat × Nat)
  | EngineRes.convErr wq => some (wq, 180)
  | _ => none

/-- Shape of every run of the fuel loop, over an arbitrary engine: at
least one invocation happens, the loop counter never moves by more than
`max rem 1`, the counter trace extends the accumulator by consecutive
values, and the writes are exactly one artifact per convergence-failing
invocation, in order. -/
theorem optimizeLoopFuel_trace (env : Env) (initIt incIt : Int) :
    ∀ rem loopCount opts invocs optsT writesAcc counterT molTraj,
      invocs < (optimizeLoopFuel env initIt incIt rem loopCount opts invocs
          optsT writesAcc counterT molTraj).invocations ∧
      loopCount ≤ (optimizeLoopFuel env initIt incIt rem loopCount opts invocs
          optsT writesAcc counterT molTraj).finalLoopCount ∧
      (optimizeLoopFuel env initIt incIt rem loopCount opts invocs
          optsT writesAcc counterT molTraj).finalLoopCount ≤ loopCount + max rem 1 ∧
      (optimizeLoopFuel env initIt incIt rem loopCount opts invocs
          optsT writesAcc counterT molTraj).counterTrace =
        counterT ++ List.range' (loopCount + 1)
          ((optimizeLoopFuel env initIt incIt rem loopCount opts invocs
            optsT writesAcc counterT molTraj).finalLoopCount - loopCount) ∧
      (optimizeLoopFuel env initIt incIt rem loopCount opts invocs
          optsT writesAcc counterT molTraj).writes =
        writesAcc ++ (List.range' invocs
          ((optimizeLoopFuel env initIt incIt rem loopCount opts invocs
            optsT writesAcc counterT molTraj).invocations - invocs)).filterMap
          (fun k => writeOf (env.engine k)) := by
  intro rem
  induction rem using Nat.twoStepInduction with
  | zero =>
      intro loopCount opts invocs optsT writesAcc counterT molTraj
      cases henv : env.engine invocs with
      | success e wf hist =>
          rw [loopFuel_success env initIt incIt 0 loopCount opts invocs
            optsT writesAcc counterT molTraj e wf hist henv]
          refine ⟨by simp only []; omega, by simp only []; omega, by simp only []; omega, by simp only []; simp, ?_⟩
          simp [List.range', writeOf, henv]
      | convErr wq =>
          rw [loopFuel_conv_exhaust env initIt incIt 0 loopCount opts invocs
            optsT writesAcc counterT molTraj wq henv (by omega)]
          refine ⟨by simp only []; omega, by simp only []; omega, by simp only []; omega, by simp only []; simp [List.range'], ?_⟩
          simp [List.range', writeOf, henv]
      | otherErr err =>
          rw [loopFuel_other env initIt incIt 0 loopCount opts invocs
            optsT writesAcc counterT molTraj err henv]
          refine ⟨by simp only []; omega, by simp only []; omega, by simp only []; omega, by simp only []; simp, ?_⟩
          simp [List.range', writeOf, henv]
  | one =>
      intro loopCount opts invocs optsT writesAcc counterT molTraj
      cases henv : env.engine invocs with
      | success e wf hist =>
          rw [loopFuel_success env initIt incIt 1 loopCount opts invocs
            optsT writesAcc counterT molTraj e wf hist henv]
          refine ⟨by simp only []; omega, by simp only []; omega, by simp only []; omega, by simp only []; simp, ?_⟩
          simp [List.range', writeOf, henv]
      | convErr wq =>
          rw [loopFuel_conv_exhaust env initIt incIt 1 loopCount opts invocs
            optsT writesAcc counterT molTraj wq henv (by omega)]
          refine ⟨by simp only []; omega, by simp only []; omega, by simp only []; omega, by simp only []; simp [List.range'], ?_⟩
          simp [List.range', writeOf, henv]
      | otherErr err =>
          rw [loopFuel_other env initIt incIt 1 loopCount opts invocs
            optsT writesAcc counterT molTraj err henv]
          refine ⟨by simp only []; omega, by simp only []; omega, by simp only []; omega, by simp only []; simp, ?_⟩
          simp [List.range', writeOf, henv]
  | more r _ ih =>
      intro loopCount opts invocs optsT writesAcc counterT molTraj
      cases henv : env.engine invocs with
      | success e wf hist =>
          rw [loopFuel_success env initIt incIt (r + 2) loopCount opts invocs
            optsT writesAcc counterT molTraj e wf hist henv]
          refine ⟨by simp only []; omega, by simp only []; omega, by simp only []; omega, by simp only []; simp, ?_⟩
          simp [List.range', writeOf, henv]
      | convErr wq =>
          rw [loopFuel_conv_step env initIt incIt r loopCount opts invocs
            optsT writesAcc counterT molTraj wq henv]
          obtain ⟨ih1, ih2, ih3, ih4, ih5⟩ := ih (loopCount + 1)
            (retrySet initIt incIt opts) (invocs + 1) (optsT ++ [opts])
            (writesAcc ++ [(wq, 180)]) (counterT ++ [loopCount + 1])
            (molTraj.map (fun tr => tr ++ [env.snapshot invocs]))
          refine ⟨by omega, by omega, by omega, ?_, ?_⟩
          · rw [ih4]
            have hn : (optimizeLoopFuel env initIt incIt (r + 1) (loopCount + 1)
                (retrySet initIt incIt opts) (invocs + 1) (optsT ++ [opts])
                (writesAcc ++ [(wq, 180)]) (counterT ++ [loopCount + 1])
                (molTraj.map (fun tr => tr ++ [env.snapshot invocs]))).finalLoopCount - loopCount =
                ((optimizeLoopFuel env initIt incIt (r + 1) (loopCount + 1)
                (retrySet initIt incIt opts) (invocs + 1) (optsT ++ [opts])
                (writesAcc ++ [(wq, 180)]) (counterT ++ [loopCount + 1])
                (molTraj.map (fun tr => tr ++ [env.snapshot invocs]))).finalLoopCount -
                  (loopCount + 1)) + 1 := by omega
            rw [hn, List.range'_succ]
            simp [List.append_assoc]
          · rw [ih5]
            have hn : (optimizeLoopFuel env initIt incIt (r + 1) (loopCount + 1)
                (retrySet initIt incIt opts) (invocs + 1) (optsT ++ [opts])
                (writesAcc ++ [(wq, 180)]) (counterT ++ [loopCount + 1])
                (molTraj.map (fun tr => tr ++ [env.snapshot invocs]))).invocations - invocs =
                ((optimizeLoopFuel env initIt incIt (r + 1) (loopCount + 1)
                (retrySet initIt incIt opts) (invocs + 1) (optsT ++ [opts])
                (writesAcc ++ [(wq, 180)]) (counterT ++ [loopCount + 1])
                (molTraj.map (fun tr => tr ++ [env.snapshot invocs]))).invocations -
                  (invocs + 1)) + 1 := by omega
            rw [hn, List.range'_succ]
            simp only [List.filterMap_cons, writeOf, henv, List.append_assoc,
              List.cons_append, List.nil_append]
      | otherErr err =>
          rw [loopFuel_other env initIt incIt (r + 2) loopCount opts invocs
            optsT writesAcc counterT molTraj err henv]
          refine ⟨by simp only []; omega, by simp only []; omega, by simp only []; omega, by simp only []; simp, ?_⟩
          simp [List.range', writeOf, henv]

/-- Frame property of the fuel loop: an option key other than GUESS,
MAXITER and GEOM_MAXITER is never touched, at any attempt nor in the
final option state. -/
theorem optimizeLoopFuel_frame (env : Env) (initIt incIt : Int) (key : String)
    (h1 : key ≠ guessKey) (h2 : key ≠ maxiterKey) (h3 : key ≠ geomMaxiterKey) :
    ∀ rem loopCount opts invocs optsT writesAcc counterT molTraj (v0 : Option OptVal),
      getOpt opts key = v0 →
      (∀ o ∈ optsT, getOpt o key = v0) →
      (∀ o ∈ (optimizeLoopFuel env initIt incIt rem loopCount opts invocs
          optsT writesAcc counterT molTraj).optsTrace, getOpt o key = v0) ∧
      getOpt (optimizeLoopFuel env initIt incIt rem loopCount opts invocs
          optsT writesAcc counterT molTraj).finalOpts key = v0 := by
  intro rem
  induction rem using Nat.twoStepInduction with
  | zero =>
      intro loopCount opts invocs optsT writesAcc counterT molTraj v0 hops hT
      cases henv : env.engine invocs with
      | success e wf hist =>
          rw [loopFuel_success env initIt incIt 0 loopCount opts invocs
            optsT writesAcc counterT molTraj e wf hist henv]
          refine ⟨?_, hops⟩
          intro o ho
          rcases List.mem_append.mp ho with h | h
          · exact hT o h
          · simp at h; subst h; exact hops
      | convErr wq =>
          rw [loopFuel_conv_exhaust env initIt incIt 0 loopCount opts invocs
            optsT writesAcc counterT molTraj wq henv (by omega)]
          refine ⟨?_, ?_⟩
          · intro o ho
            rcases List.mem_append.mp ho with h | h
            · exact hT o h
            · simp at h; subst h; exact hops
          · rw [getOpt_retrySet_other initIt incIt opts key h1 h2 h3]
            exact hops
      | otherErr err =>
          rw [loopFuel_other env initIt incIt 0 loopCount opts invocs
            optsT writesAcc counterT molTraj err henv]
          refine ⟨?_, hops⟩
          intro o ho
          rcases List.mem_append.mp ho with h | h
          · exact hT o h
          · simp at h; subst h; exact hops
  | one =>
      intro loopCount opts invocs optsT writesAcc counterT molTraj v0 hops hT
      cases henv : env.engine invocs with
      | success e wf hist =>
          rw [loopFuel_success env initIt incIt 1 loopCount opts invocs
            optsT writesAcc counterT molTraj e wf hist henv]
          refine ⟨?_, hops⟩
          intro o ho
          rcases List.mem_append.mp ho with h | h
          · exact hT o h
          · simp at h; subst h; exact hops
      | convErr wq =>
          rw [loopFuel_conv_exhaust env initIt incIt 1 loopCount opts invocs
            optsT writesAcc counterT molTraj wq henv (by omega)]
          refine ⟨?_, ?_⟩
          · intro o ho
            rcases List.mem_append.mp ho with h | h
            · exact hT o h
            · simp at h; subst h; exact hops
          · rw [getOpt_retrySet_other initIt incIt opts key h1 h2 h3]
            exact hops
      | otherErr err =>
          rw [loopFuel_other env initIt incIt 1 loopCount opts invocs
            optsT writesAcc counterT molTraj err henv]
          refine ⟨?_, hops⟩
          intro o ho
          rcases List.mem_append.mp ho with h | h
          · exact hT o h
          · simp at h; subst h; exact hops
  | more r _ ih =>
      intro loopCount opts invocs optsT writesAcc counterT molTraj v0 hops hT
      cases henv : env.engine invocs with
      | success e wf hist =>
          rw [loopFuel_success env initIt incIt (r + 2) loopCount opts invocs
            optsT writesAcc counterT molTraj e wf hist henv]
          refine ⟨?_, hops⟩
          intro o ho
          rcases List.mem_append.mp ho with h | h
          · exact hT o h
          · simp at h; subst h; exact hops
      | convErr wq =>
          rw [loopFuel_conv_step env initIt incIt r loopCount opts invocs
            optsT writesAcc counterT molTraj wq henv]
          refine ih (loopCount + 1) (retrySet initIt incIt opts) (invocs + 1)
            (optsT ++ [opts]) (writesAcc ++ [(wq, 180)]) (counterT ++ [loopCount + 1])
            (molTraj.map (fun tr => tr ++ [env.snapshot invocs])) v0 ?_ ?_
          · rw [getOpt_retrySet_other initIt incIt opts key h1 h2 h3]
            exact hops
          · intro o ho
            rcases List.mem_append.mp ho with h | h
            · exact hT o h
            · simp at h; subst h; exact hops
      | otherErr err =>
          rw [loopFuel_other env initIt incIt (r + 2) loopCount opts invocs
            optsT writesAcc counterT molTraj err henv]
          refine ⟨?_, hops⟩
          intro o ho
          rcases List.mem_append.mp ho with h | h
          · exact hT o h
          · simp at h; subst h; exact hops

/-- Unfolding of the initial option call into its two updates. -/
theorem initialOpts_def (opts0 : Opts) (initIt : Int) :
    initialOpts opts0 initIt =
      setOpt (setOpt opts0 maxiterKey (OptVal.int initIt)) geomMaxiterKey (OptVal.int initIt) := by
  rfl

/-- The initial option call sets MAXITER to `initial_iterations`. -/
theorem getOpt_initialOpts_maxiter (opts0 : Opts) (initIt : Int) :
    getOpt (initialOpts opts0 initIt) maxiterKey = some (OptVal.int initIt) := by
  rw [initialOpts_def]
  rw [getOpt_setOpt_ne _ _ _ _ (by decide)]
  exact getOpt_setOpt_self _ _ _

/-- The initial option call sets GEOM_MAXITER to `initial_iterations`. -/
theorem getOpt_initialOpts_geomMaxiter (opts0 : Opts) (initIt : Int) :
    getOpt (initialOpts opts0 initIt) geomMaxiterKey = some (OptVal.int initIt) := by
  rw [initialOpts_def]
  exact getOpt_setOpt_self _ _ _

/-- The initial option call touches no key other than MAXITER and
GEOM_MAXITER. -/
theorem getOpt_initialOpts_other (opts0 : Opts) (initIt : Int) (key : String)
    (h2 : key ≠ maxiterKey) (h3 : key ≠ geomMaxiterKey) :
    getOpt (initialOpts opts0 initIt) key = getOpt opts0 key := by
  rw [initialOpts_def]
  rw [getOpt_setOpt_ne _ _ _ _ (fun h => h3 h.symm)]
  exact getOpt_setOpt_ne _ _ _ _ (fun h => h2 h.symm)

/-- Trace shape of every `psi4_optimize` run: at least one invocation,
the loop counter bounded by `max maxLoop 1`, the counter trace equal to
`0, 1, ..., finalLoopCount`, and the writes exactly one scratch-file
artifact per convergence-failing invocation, in order. -/
theorem psi4_optimize_trace (env : Env) (opts0 : Opts) (initIt incIt : Int)
    (maxLoop : Nat) (mol : Bool) :
    0 < (psi4_optimize env opts0 initIt incIt maxLoop mol).invocations ∧
    (psi4_optimize env opts0 initIt incIt maxLoop mol).finalLoopCount ≤ max maxLoop 1 ∧
    (psi4_optimize env opts0 initIt incIt maxLoop mol).counterTrace =
      List.range ((psi4_optimize env opts0 initIt incIt maxLoop mol).finalLoopCount + 1) ∧
    (psi4_optimize env opts0 initIt incIt maxLoop mol).writes =
      (List.range (psi4_optimize env opts0 initIt incIt maxLoop mol).invocations).filterMap
        (fun k => writeOf (env.engine k)) := by
  rw [psi4_optimize_eq_fuel]
  unfold psi4_optimizeFuel
  obtain ⟨ih1, ih2, ih3, ih4, ih5⟩ := optimizeLoopFuel_trace env initIt incIt maxLoop 0
    (initialOpts opts0 initIt) 0 [] [] [0] (if mol then some [] else none)
  refine ⟨by omega, by omega, ?_, ?_⟩
  · rw [ih4]
    rw [List.range_eq_range', List.range'_succ]
    simp
  · rw [ih5]
    rw [List.range_eq_range']
    simp

/-- Frame property of `psi4_optimize`: an option key other than GUESS,
MAXITER and GEOM_MAXITER holds its ambient value at every attempt and
in the final option state. -/
theorem psi4_optimize_frame (env : Env) (opts0 : Opts) (initIt incIt : Int)
    (maxLoop : Nat) (mol : Bool) (key : String)
    (h1 : key ≠ guessKey) (h2 : key ≠ maxiterKey) (h3 : key ≠ geomMaxiterKey) :
    (∀ o ∈ (psi4_optimize env opts0 initIt incIt maxLoop mol).optsTrace,
        getOpt o key = getOpt opts0 key) ∧
    getOpt (psi4_optimize env opts0 initIt incIt maxLoop mol).finalOpts key =
      getOpt opts0 key := by
  rw [psi4_optimize_eq_fuel]
  unfold psi4_optimizeFuel
  exact optimizeLoopFuel_frame env initIt incIt key h1 h2 h3 maxLoop 0
    (initialOpts opts0 initIt) 0 [] [] [0] (if mol then some [] else none)
    (getOpt opts0 key) (getOpt_initialOpts_other opts0 initIt key h2 h3)
    (by intro o ho; simp at ho)

/-- Closed form of a `psi4_optimize` run whose engine fails `j` times
and then halts (succeeds or raises a non-convergence error), with the
retry ceiling not hit first. -/
theorem psi4_optimize_failsThenHalt (w s : Nat → Nat) (j : Nat) (fin : EngineRes)
    (hfin : isConv fin = false) (opts0 : Opts) (initIt incIt : Int)
    (maxLoop : Nat) (mol : Bool) (hj : j < max maxLoop 1) :
    psi4_optimize { engine := failsThen w j fin, snapshot := s } opts0 initIt incIt maxLoop mol =
      { outcome := haltOutcome fin (if mol then some ((List.range j).map s) else none),
        invocations := j + 1,
        optsTrace := initialOpts opts0 initIt ::
          List.replicate j (retrySet initIt incIt (initialOpts opts0 initIt)),
        finalOpts := if j = 0 then initialOpts opts0 initIt
          else retrySet initIt incIt (initialOpts opts0 initIt),
        writes := (List.range j).map (fun k => (w k, 180)),
        finalLoopCount := j,
        counterTrace := List.range (j + 1),
        molTraj := if mol then some ((List.range j).map s) else none } := by
  rw [psi4_optimize_eq_fuel]
  unfold psi4_optimizeFuel
  rw [optimizeLoopFuel_failsThenHalt { engine := failsThen w j fin, snapshot := s }
    initIt incIt w fin hfin j maxLoop 0 (initialOpts opts0 initIt) 0 [] [] [0]
    (if mol then some [] else none)
    (by intro k _ hk
        simp only [Nat.zero_add] at hk
        simp [failsThen, hk])
    (by simp [failsThen])
    (by omega)]
  have hcnt : (0 : Nat) :: List.range' 1 j = List.range (j + 1) := by
    rw [List.range_eq_range', List.range'_succ]
  cases mol <;> simp [List.range_eq_range', hcnt]

/-- A run whose first invocation converges halts at once: one
invocation, no writes, no retries, and the history replaced by the
empty coordinates dictionary exactly when a molecule was supplied. -/
theorem psi4_optimize_firstSuccess (env : Env) (opts0 : Opts) (initIt incIt : Int)
    (maxLoop : Nat) (mol : Bool) (e : Int) (wf hist : Nat)
    (h : env.engine 0 = EngineRes.success e wf hist) :
    psi4_optimize env opts0 initIt incIt maxLoop mol =
      { outcome := Outcome.ok e wf
          (if mol then Traj.coordinates [] else Traj.engineHist hist),
        invocations := 1,
        optsTrace := [initialOpts opts0 initIt],
        finalOpts := initialOpts opts0 initIt,
        writes := [],
        finalLoopCount := 0,
        counterTrace := [0],
        molTraj := if mol then some [] else none } := by
  rw [psi4_optimize_eq_fuel]
  unfold psi4_optimizeFuel
  rw [loopFuel_success env initIt incIt maxLoop 0 (initialOpts opts0 initIt) 0 [] [] [0]
    (if mol then some [] else none) e wf hist h]
  cases mol <;> simp

/-- Concrete permanently failing engine for the concrete runs below:
invocation k fails with wavefunction handle k and snapshot k. -/
def alwaysFailEnv : Env := allFail (fun k => k) (fun k => k)

/-- C1: on a permanently failing engine with initial budget 10,
increment 10 and ceiling 3, the iteration-budget options in effect at
attempts 0, 1, 2 are 10, 20, 20: every retry writes
`initial_iterations + increment_iteration`, so attempt 2 runs with
budget 20, not the 30 = initial + 2 × increment that the claim (and the
docstring) demand. -/
theorem c1_budget_constant_after_first_retry :
    ((psi4_optimize alwaysFailEnv [] 10 10 3 false).optsTrace.map
        (fun o => (getOpt o maxiterKey, getOpt o geomMaxiterKey))) =
      [(some (OptVal.int 10), some (OptVal.int 10)),
       (some (OptVal.int 20), some (OptVal.int 20)),
       (some (OptVal.int 20), some (OptVal.int 20))] ∧
    (some (OptVal.int 20) : Option OptVal) ≠ some (OptVal.int 30) := by
  constructor
  · rw [psi4_optimize_eq_fuel]
    decide
  · decide

/-- C2 counterexample: with ceiling M = 1 a permanently failing solve is
invoked exactly once, not the M + 1 = 2 times the claim demands. -/
theorem c2_counterexample :
    (psi4_optimize alwaysFailEnv [] 10 10 1 false).invocations = 1 ∧ (1 : Nat) ≠ 1 + 1 := by
  constructor
  · rw [psi4_optimize_eq_fuel]
    decide
  · decide

/-- C2 amended: a permanently non-converging solve is invoked exactly
`max M 1` times before the failure propagates: once when M = 0, and M
times (not M + 1) when M ≥ 1. -/
theorem c2_invocations_amended (w s : Nat → Nat) (opts0 : Opts) (initIt incIt : Int)
    (maxLoop : Nat) (mol : Bool) :
    (psi4_optimize (allFail w s) opts0 initIt incIt maxLoop mol).invocations =
      max maxLoop 1 := by
  rw [psi4_optimize_allFail]

/-- C3 counterexample: with ceiling M = 0, a molecule handle and a
permanently failing engine, the trajectory accumulator at exhaustion
has one entry, not the M = 0 entries the claim demands. -/
theorem c3_counterexample :
    (psi4_optimize alwaysFailEnv [] 10 10 0 true).molTraj.map List.length = some 1 ∧
    (1 : Nat) ≠ 0 := by
  constructor
  · rw [psi4_optimize_eq_fuel]
    decide
  · decide

/-- C3 amended: the trajectory accumulator exists exactly when a
molecule handle is supplied; on exhaustion it holds one snapshot per
failed attempt in chronological order — `max M 1` entries (M for
M ≥ 1, but one when M = 0) — and immediate success leaves it empty. -/
theorem c3_trajectory_amended (w s : Nat → Nat) (opts0 opts1 : Opts) (initIt incIt : Int)
    (maxLoop : Nat) (env2 : Env) (e : Int) (wf hist : Nat)
    (h0 : env2.engine 0 = EngineRes.success e wf hist) :
    (psi4_optimize (allFail w s) opts0 initIt incIt maxLoop true).molTraj =
      some ((List.range (max maxLoop 1)).map s) ∧
    (psi4_optimize (allFail w s) opts0 initIt incIt maxLoop false).molTraj = none ∧
    (psi4_optimize env2 opts1 initIt incIt maxLoop true).molTraj = some [] := by
  refine ⟨?_, ?_, ?_⟩
  · rw [psi4_optimize_allFail]
    simp
  · rw [psi4_optimize_allFail]
    simp
  · rw [psi4_optimize_firstSuccess env2 opts1 initIt incIt maxLoop true e wf hist h0]
    simp

/-- C3 amended, witness: concrete instance with M = 2, molecule
supplied: two snapshots in order on exhaustion, and none on immediate
success. -/
theorem c3_trajectory_amended_witness :
    (psi4_optimize (allFail (fun k => k) (fun k => k + 7)) [] 10 10 2 true).molTraj =
      some [7, 8] ∧
    (psi4_optimize (allFail (fun k => k) (fun k => k + 7)) [] 10 10 2 false).molTraj = none ∧
    (psi4_optimize { engine := fun _ => EngineRes.success 5 6 9, snapshot := fun k => k }
      [] 10 10 2 true).molTraj = some [] := by
  have h := c3_trajectory_amended (fun k => k) (fun k => k + 7) [] [] 10 10 2
    { engine := fun _ => EngineRes.success 5 6 9, snapshot := fun k => k } 5 6 9 rfl
  refine ⟨?_, h.2.1, h.2.2⟩
  rw [h.1]
  decide

/-- C4 counterexample: with ceiling M = 2 and a permanently failing
engine whose attempt k fails with wavefunction handle k, the re-raised
error carries handle 1 (the final failed attempt), not handle 0 (the
first failed attempt) as the claim demands. -/
theorem c4_counterexample :
    (psi4_optimize alwaysFailEnv [] 10 10 2 false).outcome = Outcome.convergenceError 1 ∧
    Outcome.convergenceError 1 ≠ Outcome.convergenceError 0 := by
  constructor
  · rw [psi4_optimize_eq_fuel]
    decide
  · decide

/-- C4 amended: on ceiling exhaustion `psi4_optimize` re-raises the
convergence error of the final (most recent) failed attempt, fatally
and with no further handling. -/
theorem c4_reraise_last_amended (w s : Nat → Nat) (opts0 : Opts) (initIt incIt : Int)
    (maxLoop : Nat) (mol : Bool) :
    (psi4_optimize (allFail w s) opts0 initIt incIt maxLoop mol).outcome =
      Outcome.convergenceError (w (max maxLoop 1 - 1)) := by
  rw [psi4_optimize_allFail]

/-- C5 counterexample: with ceiling M = 0 and a permanently failing
engine the retry counter takes the values 0 and 1, and 1 exceeds the
configured maximum 0, contradicting the claimed invariant. -/
theorem c5_counterexample :
    (psi4_optimize alwaysFailEnv [] 10 10 0 false).counterTrace = [0, 1] ∧
    ¬ (1 : Nat) ≤ 0 := by
  constructor
  · rw [psi4_optimize_eq_fuel]
    decide
  · decide

/-- C5 amended: in every run the retry counter starts at 0 and goes up
by one per failed attempt (its trace is `0, 1, ..., finalLoopCount`),
and every value it takes is at most `max M 1` — at most M when M ≥ 1,
but the counter reaches 1 when M = 0. -/
theorem c5_counter_amended (env : Env) (opts0 : Opts) (initIt incIt : Int)
    (maxLoop : Nat) (mol : Bool) :
    (psi4_optimize env opts0 initIt incIt maxLoop mol).counterTrace =
      List.range ((psi4_optimize env opts0 initIt incIt maxLoop mol).finalLoopCount + 1) ∧
    ∀ c ∈ (psi4_optimize env opts0 initIt incIt maxLoop mol).counterTrace,
      c ≤ max maxLoop 1 := by
  obtain ⟨h1, h2, h3, h4⟩ := psi4_optimize_trace env opts0 initIt incIt maxLoop mol
  refine ⟨h3, ?_⟩
  intro c hc
  rw [h3] at hc
  have := List.mem_range.mp hc
  omega

/-- C6: the persisted-state writes of a run are exactly one artifact
per convergence-failing invocation, in order, each to the scratch file
of the fixed unit 180; a run that converges on the first attempt
performs zero writes. -/
theorem c6_writes (env : Env) (opts0 opts1 : Opts) (initIt incIt : Int)
    (maxLoop : Nat) (mol : Bool) (env2 : Env) (e : Int) (wf hist : Nat)
    (h0 : env2.engine 0 = EngineRes.success e wf hist) :
    (psi4_optimize env opts0 initIt incIt maxLoop mol).writes =
      (List.range (psi4_optimize env opts0 initIt incIt maxLoop mol).invocations).filterMap
        (fun k => writeOf (env.engine k)) ∧
    (∀ p ∈ (psi4_optimize env opts0 initIt incIt maxLoop mol).writes, p.2 = 180) ∧
    (psi4_optimize env2 opts1 initIt incIt maxLoop mol).writes = [] := by
  obtain ⟨h1, h2, h3, h4⟩ := psi4_optimize_trace env opts0 initIt incIt maxLoop mol
  refine ⟨h4, ?_, ?_⟩
  · intro p hp
    rw [h4] at hp
    obtain ⟨k, _, hk⟩ := List.mem_filterMap.mp hp
    cases hek : env.engine k <;> rw [hek] at hk <;> simp [writeOf] at hk
    rw [← hk]
  · rw [psi4_optimize_firstSuccess env2 opts1 initIt incIt maxLoop mol e wf hist h0]

/-- C6, witness: concrete instance — two failures then exhaustion give
writes [(0,180),(1,180)] matching the per-failure characterisation, and
an immediately succeeding engine gives no writes. -/
theorem c6_writes_witness :
    (psi4_optimize alwaysFailEnv [] 10 10 2 false).writes =
      (List.range (psi4_optimize alwaysFailEnv [] 10 10 2 false).invocations).filterMap
        (fun k => writeOf (alwaysFailEnv.engine k)) ∧
    (∀ p ∈ (psi4_optimize alwaysFailEnv [] 10 10 2 false).writes, p.2 = 180) ∧
    (psi4_optimize { engine := fun _ => EngineRes.success 5 6 9, snapshot := fun k => k }
      [] 10 10 2 false).writes = [] :=
  c6_writes alwaysFailEnv [] [] 10 10 2 false
    { engine := fun _ => EngineRes.success 5 6 9, snapshot := fun k => k } 5 6 9 rfl

/-- C7: an engine failing to converge j times (each retried, within the
ceiling) and then raising a non-convergence error makes the driver stop
at invocation j + 1 and propagate that error immediately and
unmodified; only convergence failures are handled. -/
theorem c7_other_errors_propagate (w s : Nat → Nat) (j err : Nat)
    (opts0 : Opts) (initIt incIt : Int) (maxLoop : Nat) (mol : Bool)
    (hj : j < max maxLoop 1) :
    (psi4_optimize { engine := failsThen w j (EngineRes.otherErr err), snapshot := s }
        opts0 initIt incIt maxLoop mol).outcome = Outcome.otherError err ∧
    (psi4_optimize { engine := failsThen w j (EngineRes.otherErr err), snapshot := s }
        opts0 initIt incIt maxLoop mol).invocations = j + 1 := by
  rw [psi4_optimize_failsThenHalt w s j (EngineRes.otherErr err) rfl opts0 initIt incIt
    maxLoop mol hj]
  exact ⟨rfl, rfl⟩

/-- C7, witness: one convergence failure then a distinct engine error
with ceiling 3: the error propagates unmodified after 2 invocations. -/
theorem c7_other_errors_propagate_witness :
    (psi4_optimize ⟨failsThen (fun k => k) 1 (EngineRes.otherErr 42), fun k => k⟩
        [] 10 10 3 false).outcome = Outcome.otherError 42 ∧
    (psi4_optimize ⟨failsThen (fun k => k) 1 (EngineRes.otherErr 42), fun k => k⟩
        [] 10 10 3 false).invocations = 1 + 1 :=
  c7_other_errors_propagate (fun k => k) (fun k => k) 1 42 [] 10 10 3 false (by decide)

/-- C8: a solve that converges on the first attempt gives exactly one
invocation of the external optimize operation, the success triple, and
retry counter 0. -/
theorem c8_first_attempt_success (env : Env) (opts0 : Opts) (initIt incIt : Int)
    (maxLoop : Nat) (mol : Bool) (e : Int) (wf hist : Nat)
    (h : env.engine 0 = EngineRes.success e wf hist) :
    (psi4_optimize env opts0 initIt incIt maxLoop mol).invocations = 1 ∧
    (psi4_optimize env opts0 initIt incIt maxLoop mol).outcome =
      Outcome.ok e wf (if mol then Traj.coordinates [] else Traj.engineHist hist) ∧
    (psi4_optimize env opts0 initIt incIt maxLoop mol).finalLoopCount = 0 := by
  rw [psi4_optimize_firstSuccess env opts0 initIt incIt maxLoop mol e wf hist h]
  exact ⟨rfl, rfl, rfl⟩

/-- C8, witness: concrete immediately-converging engine. -/
theorem c8_first_attempt_success_witness :
    (psi4_optimize { engine := fun _ => EngineRes.success 5 7 9, snapshot := fun k => k }
        [] 10 10 20 false).invocations = 1 ∧
    (psi4_optimize { engine := fun _ => EngineRes.success 5 7 9, snapshot := fun k => k }
        [] 10 10 20 false).outcome =
      Outcome.ok 5 7 (if false then Traj.coordinates [] else Traj.engineHist 9) ∧
    (psi4_optimize { engine := fun _ => EngineRes.success 5 7 9, snapshot := fun k => k }
        [] 10 10 20 false).finalLoopCount = 0 :=
  c8_first_attempt_success
    { engine := fun _ => EngineRes.success 5 7 9, snapshot := fun k => k }
    [] 10 10 20 false 5 7 9 rfl

/-- C9 counterexample: with an empty ambient option state and ceiling 2
on a permanently failing engine, the options in effect at attempt 1
bind GUESS — an option that is not an iteration budget — to the string
read, though it was unset before the call: the driver changes a
configuration option other than the iteration-budget option. -/
theorem c9_counterexample :
    getOpt ((psi4_optimize alwaysFailEnv [] 10 10 2 false).optsTrace.getD 1 []) guessKey =
      some (OptVal.str readVal) ∧
    getOpt ([] : Opts) guessKey = none ∧
    guessKey ≠ maxiterKey ∧ guessKey ≠ geomMaxiterKey := by
  refine ⟨?_, by decide, by decide, by decide⟩
  rw [psi4_optimize_eq_fuel]
  decide

/-- C9 amended: the driver mutates only MAXITER, GEOM_MAXITER and (on
retries) GUESS: every other option key keeps its ambient value at every
attempt and in the final option state. -/
theorem c9_frame_amended (env : Env) (opts0 : Opts) (initIt incIt : Int)
    (maxLoop : Nat) (mol : Bool) (key : String)
    (h1 : key ≠ guessKey) (h2 : key ≠ maxiterKey) (h3 : key ≠ geomMaxiterKey) :
    (∀ o ∈ (psi4_optimize env opts0 initIt incIt maxLoop mol).optsTrace,
        getOpt o key = getOpt opts0 key) ∧
    getOpt (psi4_optimize env opts0 initIt incIt maxLoop mol).finalOpts key =
      getOpt opts0 key :=
  psi4_optimize_frame env opts0 initIt incIt maxLoop mol key h1 h2 h3

/-- C9 amended, witness: the FREEZE_CORE key is untouched throughout a
concrete failing run. -/
theorem c9_frame_amended_witness :
    (∀ o ∈ (psi4_optimize alwaysFailEnv [] 10 10 2 false).optsTrace,
        getOpt o ("FREEZE_CORE") = getOpt ([] : Opts) ("FREEZE_CORE")) ∧
    getOpt (psi4_optimize alwaysFailEnv [] 10 10 2 false).finalOpts ("FREEZE_CORE") =
      getOpt ([] : Opts) ("FREEZE_CORE") :=
  c9_frame_amended alwaysFailEnv [] 10 10 2 false ("FREEZE_CORE")
    (by decide) (by decide) (by decide)

/-- C10: when a molecule handle is supplied and the run returns
successfully after j recorded failures (within the ceiling), the third
component of the returned triple is the coordinates dictionary holding
the per-failure snapshots in order — the engine-returned history is
discarded; with j = 0 (first-attempt success) it is the empty
coordinates tuple. -/
theorem c10_coordinates_replace_history (w s : Nat → Nat) (j : Nat) (e : Int)
    (wf hist : Nat) (opts0 opts1 : Opts) (initIt incIt : Int) (maxLoop : Nat)
    (env2 : Env) (e2 : Int) (wf2 hist2 : Nat)
    (hj : j < max maxLoop 1) (h0 : env2.engine 0 = EngineRes.success e2 wf2 hist2) :
    (psi4_optimize { engine := failsThen w j (EngineRes.success e wf hist), snapshot := s }
        opts0 initIt incIt maxLoop true).outcome =
      Outcome.ok e wf (Traj.coordinates ((List.range j).map s)) ∧
    (psi4_optimize env2 opts1 initIt incIt maxLoop true).outcome =
      Outcome.ok e2 wf2 (Traj.coordinates []) := by
  constructor
  · rw [psi4_optimize_failsThenHalt w s j (EngineRes.success e wf hist) rfl opts0
      initIt incIt maxLoop true hj]
    simp [haltOutcome]
  · rw [psi4_optimize_firstSuccess env2 opts1 initIt incIt maxLoop true e2 wf2 hist2 h0]
    simp

/-- C10, witness: one failure then success with molecule supplied —
the returned history is the one-snapshot coordinates dictionary — and
an immediate success returns the empty coordinates dictionary. -/
theorem c10_coordinates_replace_history_witness :
    (psi4_optimize ⟨failsThen (fun k => k) 1 (EngineRes.success 5 7 9), fun k => k + 3⟩
        [] 10 10 2 true).outcome =
      Outcome.ok 5 7 (Traj.coordinates ((List.range 1).map (fun k => k + 3))) ∧
    (psi4_optimize { engine := fun _ => EngineRes.success 4 8 6, snapshot := fun k => k }
        [] 10 10 2 true).outcome = Outcome.ok 4 8 (Traj.coordinates []) :=
  c10_coordinates_replace_history (fun k => k) (fun k => k + 3) 1 5 7 9 [] [] 10 10 2
    ⟨fun _ => EngineRes.success 4 8 6, fun k => k⟩ 4 8 6 (by decide) rfl

end Psi4Restart
